import Mathlib

/-!
Verification of the FortTest repository: a shallow embedding of the
request/assertion engine (`src/classes/backendTest.ts`) and the auth client
(`src/utils/auth.ts`), with theorems settling the specification claims.

JavaScript runtime values that can appear as a parsed response body, a request
body payload, or an assertion argument are modelled by `JsValue`.  Numbers are
modelled as integers (no claim involves non-integral numbers or NaN), and
binary payloads (Blob/File) are outside the modelled value universe.
-/

namespace FortTest

/-- JavaScript values: `undefined`, `null`, booleans, numbers, strings,
arrays and plain objects (fields kept in insertion order, as JS does). -/
inductive JsValue where
  | undefined : JsValue
  | null : JsValue
  | bool : Bool → JsValue
  | num : Int → JsValue
  | str : String → JsValue
  | arr : List JsValue → JsValue
  | obj : List (String × JsValue) → JsValue

/-- JS truthiness of a value (`if (v)`), per ECMAScript ToBoolean. -/
def jsTruthy : JsValue → Bool
  | .undefined => false
  | .null => false
  | .bool b => b
  | .num n => n != 0
  | .str s => s != ""
  | .arr _ => true
  | .obj _ => true

def isNullish : JsValue → Bool
  | .undefined => true
  | .null => true
  | _ => false

def isUndefined : JsValue → Bool
  | .undefined => true
  | _ => false

/-- JS strict equality `===` restricted to the modelled universe: structural on
primitives; arrays/objects compare by reference in JS, and since an assertion's
expected value is always a fresh literal distinct from the parsed body, two
composite values are never the same reference, hence `false`. -/
def jsStrictEq : JsValue → JsValue → Bool
  | .undefined, .undefined => true
  | .null, .null => true
  | .bool a, .bool b => a == b
  | .num a, .num b => a == b
  | .str a, .str b => a == b
  | _, _ => false

/-! Kernel-evaluable string utilities (structural recursion over the
character list; `String.splitOn`, `String.toLower` and `String.toNat?` do not
reduce inside the kernel). -/

/-- Splitting on `'.'`, with the semantics of JS `"…".split('.')`:
`"" ↦ [""]`, `"a..b" ↦ ["a","","b"]`. -/
def splitDotsAux : List Char → List Char → List String
  | [], acc => [String.mk acc.reverse]
  | c :: cs, acc =>
    if c == '.' then String.mk acc.reverse :: splitDotsAux cs []
    else splitDotsAux cs (c :: acc)

def splitDots (s : String) : List String :=
  splitDotsAux s.data []

/-- ASCII lowercasing of a header name. -/
def asciiLower (s : String) : String :=
  String.mk (s.data.map Char.toLower)

def digitsToNat : List Char → Nat → Option Nat
  | [], acc => some acc
  | c :: cs, acc =>
    if c.isDigit then digitsToNat cs (acc * 10 + (c.toNat - 48)) else none

/-- Decimal parse of a string, `none` when empty or not all digits
(the semantics of `String.toNat?`). -/
def strToNat (s : String) : Option Nat :=
  match s.data with
  | [] => none
  | _ => digitsToNat s.data 0

/-- JS property read `v[k]`: object key lookup, array numeric index (the key
must be the canonical decimal form, as `a["01"]` is not an index), array and
string `length`, string numeric index; everything else yields `undefined`.
Reads on `undefined`/`null` never occur in the embedded code (it guards first),
so they are mapped to `undefined`. -/
def jsGet : JsValue → String → JsValue
  | .obj fs, k =>
    match fs.find? (fun p => p.1 == k) with
    | some p => p.2
    | none => .undefined
  | .arr xs, k =>
    if k == "length" then .num xs.length
    else
      match strToNat k with
      | some i => if toString i == k then xs.getD i .undefined else .undefined
      | none => .undefined
  | .str s, k =>
    if k == "length" then .num s.length
    else
      match strToNat k with
      | some i =>
        if toString i == k then
          if h : i < s.length then .str (String.mk [s.data.get ⟨i, h⟩]) else .undefined
        else .undefined
      | none => .undefined
  | _, _ => .undefined

/-! ### The assertion surface (`expects`) -/

/-- Outcome of a `toHaveProperty` call: the early-exit "not found" log line,
the pass log line, or the generic failure log line. -/
inductive PropOutcome where
  | notFound : PropOutcome
  | passed : PropOutcome
  | failed : PropOutcome
deriving DecidableEq

/-- The traversal loop of `toHaveProperty` (backendTest.ts lines 140-149):
before consuming each segment the current value is checked for
`undefined`/`null` (early "not found" exit, `none`); otherwise the segment is
read off the current value. `some v` is the value after the whole path. -/
def propLoop : JsValue → List String → Option JsValue
  | cur, [] => some cur
  | cur, p :: rest => if isNullish cur then none else propLoop (jsGet cur p) rest

/-- Embedding of `toHaveProperty(path, value?)` (backendTest.ts lines 138-158 and 364-383):
splits the path on `.`, runs the traversal loop, then
`value !== undefined ? current === value : current !== undefined`.
An omitted `value` argument is JS `undefined`, i.e. `JsValue.undefined` here. -/
def toHaveProperty (data : JsValue) (path : String) (value : JsValue) : PropOutcome :=
  match propLoop data (splitDots path) with
  | none => .notFound
  | some cur =>
    if (if isUndefined value then !(isUndefined cur) else jsStrictEq cur value) then .passed
    else .failed

/-- Embedding of `Headers.get` of the Fetch API: case-insensitive lookup, `null` (here
`none`) when absent. -/
def headersGet (headers : List (String × String)) (name : String) : Option String :=
  match headers.find? (fun p => asciiLower p.1 == asciiLower name) with
  | some p => some p.2
  | none => none

/-- JS truthiness of an optional string argument (absent, `undefined` and `""`
are falsy). -/
def strTruthy : Option String → Bool
  | none => false
  | some s => s != ""

/-- Embedding of `toHaveHeader(header, value?)` (backendTest.ts lines 127-137 and 354-363):
`const headerValue = result.headers.get(header);`
`const success = value ? headerValue === value : Boolean(headerValue);`
Note the `value ?` truthiness test: an absent, `undefined` or empty-string
`value` selects the `Boolean(headerValue)` branch. -/
def toHaveHeader (headers : List (String × String)) (name : String)
    (value : Option String) : Bool :=
  let headerValue := headersGet headers name
  if strTruthy value then headerValue == value else strTruthy headerValue

/-- Embedding of `toHaveStatus(status)` (backendTest.ts lines 93-102): strict equality of
the numeric response status. -/
def toHaveStatus (status : Nat) (expected : Nat) : Bool :=
  status == expected

/-! ### `JSON.stringify` and `String()` coercion -/

def jsonEscapeChar (c : Char) : String :=
  if c == '"' then "\\\"" else if c == '\\' then "\\\\" else String.mk [c]

def jsonQuote (s : String) : String :=
  "\"" ++ String.join (s.data.map jsonEscapeChar) ++ "\""

mutual

/-- Embedding of `JSON.stringify`: `none` models the JS `undefined` return (top-level
`undefined` input); object fields are emitted in insertion order, fields whose
value stringifies to `undefined` are omitted, array holes become `null`. -/
def stringifyVal : JsValue → Option String
  | .undefined => none
  | .null => some "null"
  | .bool b => some (cond b "true" "false")
  | .num n => some (toString n)
  | .str s => some (jsonQuote s)
  | .arr xs => some ("[" ++ String.intercalate "," (stringifyArr xs) ++ "]")
  | .obj fs => some ("\x7b" ++ String.intercalate "," (stringifyObj fs) ++ "\x7d")

def stringifyArr : List JsValue → List String
  | [] => []
  | x :: xs => ((stringifyVal x).getD "null") :: stringifyArr xs

def stringifyObj : List (String × JsValue) → List String
  | [] => []
  | (k, v) :: fs =>
    match stringifyVal v with
    | some s => (jsonQuote k ++ ":" ++ s) :: stringifyObj fs
    | none => stringifyObj fs

end

/-- Embedding of `toMatchData(expected)` (backendTest.ts lines 113-126 and 341-353):
`JSON.stringify(result.data) === JSON.stringify(expected)`.  Comparing the
`Option String` values also covers the corner case where both stringify calls
return JS `undefined` (then `undefined === undefined` is `true`). -/
def toMatchData (data expected : JsValue) : Bool :=
  stringifyVal data == stringifyVal expected

mutual

/-- JS `String(value)` coercion; array elements join with commas and nullish
elements render as the empty string. -/
def jsToString : JsValue → String
  | .undefined => "undefined"
  | .null => "null"
  | .bool b => cond b "true" "false"
  | .num n => toString n
  | .str s => s
  | .arr xs => String.intercalate "," (jsToStringArr xs)
  | .obj _ => "[object Object]"

def jsToStringArr : List JsValue → List String
  | [] => []
  | x :: xs => (if isNullish x then "" else jsToString x) :: jsToStringArr xs

end

/-- JS `Object.entries`: own enumerable entries of an object, indexed entries
of an array or string, empty for primitives. -/
def jsEntries : JsValue → List (String × JsValue)
  | .obj fs => fs
  | .arr xs => xs.enum.map (fun p => (toString p.1, p.2))
  | .str s => s.data.enum.map (fun p => (toString p.1, JsValue.str (String.mk [p.2])))
  | _ => []

/-! ### Plain-object header records

The engine builds `requestHeaders` as a plain JS object, so key lookup,
assignment and deletion are exact (case-sensitive), unlike `Headers.get`. -/

def objGet (o : List (String × String)) (k : String) : Option String :=
  (o.find? (fun p => p.1 == k)).map (fun p => p.2)

def objSet (o : List (String × String)) (k v : String) : List (String × String) :=
  if o.any (fun p => p.1 == k) then
    o.map (fun p => if p.1 == k then (k, v) else p)
  else o ++ [(k, v)]

def objDelete (o : List (String × String)) (k : String) : List (String × String) :=
  o.filter (fun p => p.1 != k)

/-- JS object spread `{...a, ...b}`: entries of `b` override those of `a`. -/
def objMerge (a b : List (String × String)) : List (String × String) :=
  b.foldl (fun acc p => objSet acc p.1 p.2) a

/-! ### Request construction (`executeRequest`, backendTest.ts lines 199-295) -/

inductive BodyType where
  | json : BodyType
  | form : BodyType
  | formData : BodyType
  | text : BodyType

/-- Per-request options after the destructuring defaults of `test` have been
applied (method default GET, bodyType json, empty headers and query params,
bearerAuth false, timeout 30000). -/
structure TestOptions where
  endpoint : String
  bodyType : BodyType
  body : JsValue
  headers : List (String × String)
  queryParams : List (String × JsValue)
  bearerAuth : Bool
  timeout : Nat

/-- The body value placed in the fetch init: a string, or a multipart
`FormData` object (entries in insertion order; binary Blob/File values are
outside the modelled universe, scalar values are stringified). -/
inductive BodyOut where
  | str : String → BodyOut
  | formData : List (String × String) → BodyOut

/-- The fetch init object `requestOptions` together with the assembled URL.
It mirrors the source exactly: the only members ever set are `method`,
`headers`, `timeout` and (conditionally) `body`; in particular no abort
signal is ever attached. -/
structure EngineRequest where
  method : String
  url : String
  headers : List (String × String)
  timeout : Nat
  body : Option BodyOut

/-- The `key=value&...` serialization of `URLSearchParams.toString()`; the
percent-encoding of reserved characters is not modelled (no claim depends on
it). -/
def encodePairs (ps : List (String × String)) : String :=
  String.intercalate "&" (ps.map (fun p => p.1 ++ "=" ++ p.2))

/-- Header assembly of `executeRequest` (backendTest.ts lines 222-247):
spread of the always-empty `defaultHeaders` and the per-call headers, then
the bearer-token header when requested (`if (bearerAuth && access_token)`),
then the content type keyed on body encoding when no truthy `Content-Type`
entry exists (`if (!requestHeaders['Content-Type'])`) — with no case for
`formData`, which the fetch library is left to handle. -/
def assembleHeaders (accessToken : String) (o : TestOptions) :
    List (String × String) :=
  let h0 := objMerge [] o.headers
  let h1 :=
    if o.bearerAuth && accessToken != "" then
      objSet h0 "Authorization" ("Bearer " ++ accessToken)
    else h0
  if !(strTruthy (objGet h1 "Content-Type")) then
    match o.bodyType with
    | .json => objSet h1 "Content-Type" "application/json"
    | .form => objSet h1 "Content-Type" "application/x-www-form-urlencoded"
    | .text => objSet h1 "Content-Type" "text/plain"
    | .formData => h1
  else h1

/-- Body preparation of `executeRequest` (backendTest.ts lines 256-289):
a body is attached only when the payload is truthy and the method is
POST/PUT/PATCH; the `formData` arm additionally deletes the `Content-Type`
entry from the headers object.  Returns the final headers and body. -/
def attachBody (method : String) (o : TestOptions)
    (requestHeaders : List (String × String)) :
    List (String × String) × Option BodyOut :=
  if jsTruthy o.body && (method == "POST" || method == "PUT" || method == "PATCH") then
    match o.bodyType with
    | .json =>
      (requestHeaders, some (.str ((stringifyVal o.body).getD "undefined")))
    | .form =>
      (requestHeaders, some (.str (encodePairs
        ((jsEntries o.body).map (fun p => (p.1, jsToString p.2))))))
    | .formData =>
      (objDelete requestHeaders "Content-Type", some (.formData
        ((jsEntries o.body).map (fun p => (p.1, jsToString p.2)))))
    | .text =>
      (requestHeaders, some (.str (jsToString o.body)))
  else (requestHeaders, none)

/-- URL assembly and request preparation of `executeRequest`
(backendTest.ts lines 212-289): base URL plus endpoint plus the query
string when any query parameters exist, the assembled headers, the
configured timeout, and the conditionally attached body. -/
def buildRequest (baseUrl accessToken method : String) (o : TestOptions) :
    EngineRequest :=
  let url := baseUrl ++ o.endpoint ++
    (if o.queryParams.length > 0 then
      "?" ++ encodePairs (o.queryParams.map (fun p => (p.1, jsToString p.2)))
    else "")
  let hb := attachBody method o (assembleHeaders accessToken o)
  { method := method, url := url, headers := hb.1, timeout := o.timeout,
    body := hb.2 }

/-! ### Network-effect model

Asynchronous code performing `fetch` is embedded as a first-order program
over a network oracle `net : EngineRequest → ρ`.  A JS promise memoizes its
outcome, so multiple `await`s of the same promise correspond to a single
`fetch` node whose continuation distributes the one response; `fetchCount`
counts the exchanges a program performs. -/

inductive FetchProg (ρ : Type) (α : Type) where
  | pure : α → FetchProg ρ α
  | fetch : EngineRequest → (ρ → FetchProg ρ α) → FetchProg ρ α

def runProg (net : EngineRequest → ρ) : FetchProg ρ α → α
  | .pure a => a
  | .fetch req k => runProg net (k (net req))

def fetchCount (net : EngineRequest → ρ) : FetchProg ρ α → Nat
  | .pure _ => 0
  | .fetch req k => 1 + fetchCount net (k (net req))

/-- A settled network response as the engine sees it after body parsing:
`data` is the JSON value when the response declared a JSON content type, and
`.str` of the raw text otherwise. -/
structure NetResponse where
  status : Nat
  statusText : String
  headers : List (String × String)
  data : JsValue
  responseTime : Nat

/-- The `TestResult` record (backendTest.ts lines 315-321), minus the bound
assertion closures, which are modelled by `applyAssertion` below. -/
structure TestResult where
  status : Nat
  statusText : String
  data : JsValue
  headers : List (String × String)
  responseTime : Nat
  description : String

def mkTestResult (description : String) (r : NetResponse) : TestResult :=
  { status := r.status, statusText := r.statusText, data := r.data,
    headers := r.headers, responseTime := r.responseTime,
    description := description }

/-- One chained assertion call: the method name together with its arguments.
`toHaveProperty` with an omitted value argument carries `JsValue.undefined`, and
`toHaveHeader` with an omitted value carries `none`, exactly as JS passes
`undefined` for a missing optional parameter. -/
inductive Assertion where
  | toHaveStatus : Nat → Assertion
  | toHaveData : (JsValue → Bool) → Assertion
  | toMatchData : JsValue → Assertion
  | toHaveHeader : String → Option String → Assertion
  | toHaveProperty : String → JsValue → Assertion

/-- Evaluation of one assertion against the settled result.  The bodies of
the assertion methods — both the ones attached to the pending promise
(lines 92-159) and the ones on the resolved `TestResult` (lines 322-384) —
contain only `await resultPromise` / the captured response plus this pure
computation and a log emission; none performs a fetch. -/
def applyAssertion (r : TestResult) : Assertion → Bool
  | .toHaveStatus n => toHaveStatus r.status n
  | .toHaveData p => p r.data
  | .toMatchData e => toMatchData r.data e
  | .toHaveHeader name v => toHaveHeader r.headers name v
  | .toHaveProperty path v => toHaveProperty r.data path v == .passed

/-- Embedding of `test(description, options)` with a chain of assertions attached
(backendTest.ts lines 66-162): `executeRequest` contributes the single
`fetch`; every chained assertion awaits the same memoized `resultPromise`
(or reads the already-captured response) and is evaluated purely. -/
def testChain (baseUrl accessToken method description : String)
    (o : TestOptions) (chain : List Assertion) :
    FetchProg NetResponse (TestResult × List Bool) :=
  .fetch (buildRequest baseUrl accessToken method o) (fun resp =>
    let r := mkTestResult description resp
    .pure (r, chain.map (applyAssertion r)))

/-- The `get(description, endpoint, options)` wrapper (lines 167-169). -/
def get (baseUrl accessToken description : String) (o : TestOptions)
    (chain : List Assertion) : FetchProg NetResponse (TestResult × List Bool) :=
  testChain baseUrl accessToken "GET" description o chain

/-- The `post` wrapper (lines 174-176). -/
def post (baseUrl accessToken description : String) (o : TestOptions)
    (chain : List Assertion) : FetchProg NetResponse (TestResult × List Bool) :=
  testChain baseUrl accessToken "POST" description o chain

/-- The `put` wrapper (lines 181-183). -/
def put (baseUrl accessToken description : String) (o : TestOptions)
    (chain : List Assertion) : FetchProg NetResponse (TestResult × List Bool) :=
  testChain baseUrl accessToken "PUT" description o chain

/-- The `patch` wrapper (lines 188-190). -/
def patch (baseUrl accessToken description : String) (o : TestOptions)
    (chain : List Assertion) : FetchProg NetResponse (TestResult × List Bool) :=
  testChain baseUrl accessToken "PATCH" description o chain

/-- The `delete` wrapper (lines 195-197). -/
def delete (baseUrl accessToken description : String) (o : TestOptions)
    (chain : List Assertion) : FetchProg NetResponse (TestResult × List Bool) :=
  testChain baseUrl accessToken "DELETE" description o chain

/-! ### Auth client (`src/utils/auth.ts`) -/

/-- Errors of the auth client.  `invalidParameters` embeds the `Error` thrown
by `validateParams` (the spec's `InvalidParameters`); `authenticationFailed`
embeds the error thrown on a non-2xx token response. -/
inductive AuthError where
  | invalidParameters : String → AuthError
  | authenticationFailed : Nat → String → AuthError
deriving DecidableEq

/-- The parameter record passed to `getAccessToken`: the four named fields the
structured grant types read, plus any further entries (used verbatim by custom
grant types).  A field holding `none` models an absent/`undefined` property. -/
structure GrantParams where
  username : Option String
  password : Option String
  refreshToken : Option String
  exchangeCode : Option String
  extra : List (String × String)

/-- The empty parameter record `{}`. -/
def noParams : GrantParams :=
  { username := none, password := none, refreshToken := none,
    exchangeCode := none, extra := [] }

/-- JS falsiness of `params?.field`: the whole record absent, the field
absent, or the field an empty string. -/
def falsyField (params : Option GrantParams) (f : GrantParams → Option String) :
    Bool :=
  match params with
  | none => true
  | some p =>
    match f p with
    | none => true
    | some s => s == ""

/-- Embedding of `validateParams` (auth.ts lines 226-254): grant-type-specific presence
checks with the source's error messages; `client_credentials` and custom
grant types perform no validation. -/
def validateParams (grantType : String) (params : Option GrantParams) :
    Except AuthError Unit :=
  if grantType == "password" then
    if falsyField params (fun p => p.username) ||
        falsyField params (fun p => p.password) then
      .error (.invalidParameters
        "Username and password are required for password grant type")
    else .ok ()
  else if grantType == "refresh_token" then
    if falsyField params (fun p => p.refreshToken) then
      .error (.invalidParameters
        "Refresh token is required for refresh_token grant type")
    else .ok ()
  else if grantType == "exchange_code" then
    if falsyField params (fun p => p.exchangeCode) then
      .error (.invalidParameters
        "Exchange code is required for exchange_code grant type")
    else .ok ()
  else .ok ()

/-- Entries of the parameter record in declaration order, as
`Object.entries(params)` yields them for custom grant types. -/
def paramEntries (p : GrantParams) : List (String × String) :=
  (match p.username with | some v => [("username", v)] | none => []) ++
  (match p.password with | some v => [("password", v)] | none => []) ++
  (match p.refreshToken with | some v => [("refreshToken", v)] | none => []) ++
  (match p.exchangeCode with | some v => [("exchangeCode", v)] | none => []) ++
  p.extra

/-- The url-encoded token-request form body (auth.ts lines 151-176):
`grant_type` first, then the grant-specific fields, or every supplied entry
for a custom grant type.  `getD ""` renders a JS `undefined` field appended
via `String(...)` — unreachable after validation succeeds. -/
def tokenFormPairs (grantType : String) (params : Option GrantParams) :
    List (String × String) :=
  ("grant_type", grantType) ::
    (match params with
    | none => []
    | some p =>
      if grantType == "password" then
        [("username", (p.username).getD "undefined"),
         ("password", (p.password).getD "undefined")]
      else if grantType == "refresh_token" then
        [("refresh_token", (p.refreshToken).getD "undefined")]
      else if grantType == "exchange_code" then
        [("exchange_code", (p.exchangeCode).getD "undefined")]
      else paramEntries p)

/-- Configuration captured by the `Auth` constructor (auth.ts lines 69-81). -/
structure AuthCfg where
  clientId : String
  clientSecret : String
  grantType : String
  baseUrl : String

/-- The POST to `{baseUrl}/auth/token` (auth.ts lines 179-186), reusing the
engine's request record; credentials travel in the basic-auth header (the
base64 rendering of `clientId:clientSecret` is kept symbolic). -/
def tokenRequest (a : AuthCfg) (grantType : String)
    (params : Option GrantParams) : EngineRequest :=
  { method := "POST",
    url := a.baseUrl ++ "/auth/token",
    headers := [("Authorization", "Basic " ++ a.clientId ++ ":" ++ a.clientSecret),
                ("Content-Type", "application/x-www-form-urlencoded")],
    timeout := 0,
    body := some (.str (encodePairs (tokenFormPairs grantType params))) }

/-- The parsed JSON body of a successful token response, per the token
endpoint's documented shape. -/
structure TokenData where
  access_token : String
  expires_in : Int
  refresh_token : Option String
  token_type : String
  client_id : String
  internal_client : String
  client_service : String
  account_id : String

/-- What the token endpooint returned for one exchange: the HTTP status, the
raw body text, and the parsed JSON data. -/
structure TokenNetResponse where
  status : Nat
  rawText : String
  tokenData : TokenData

/-- The `AuthResponse` record (auth.ts lines 200-210).  `expires_at_ms` is the
epoch-millisecond instant wrapped by
`new Date(Date.now() + data.expires_in * 1000).toISOString()`; the ISO-8601
rendering is an injective presentation of this instant and is not modelled
further. -/
structure AuthResponse where
  access_token : String
  expires_in : Int
  expires_at_ms : Int
  refresh_token : Option String
  token_type : String
  client_id : String
  internal_client : String
  client_service : String
  account_id : String

/-- Construction of the `AuthResponse` from the parsed data, at clock reading
`now` (the `Date.now()` call while the response is processed). -/
def buildAuthResponse (now : Int) (d : TokenData) : AuthResponse :=
  { access_token := d.access_token,
    expires_in := d.expires_in,
    expires_at_ms := now + d.expires_in * 1000,
    refresh_token := d.refresh_token,
    token_type := d.token_type,
    client_id := d.client_id,
    internal_client := d.internal_client,
    client_service := d.client_service,
    account_id := d.account_id }

/-- Embedding of `response.ok` of the Fetch API: status in the 2xx range. -/
def respOk (status : Nat) : Bool :=
  200 ≤ status && status ≤ 299

/-- The token-oracle variant of a fetch program (the auth client parses the
token endpoint's JSON shape rather than an arbitrary body). -/
def runAuthProg (net : EngineRequest → TokenNetResponse) :
    FetchProg TokenNetResponse α → α
  | .pure a => a
  | .fetch req k => runAuthProg net (k (net req))

def authFetchCount (net : EngineRequest → TokenNetResponse) :
    FetchProg TokenNetResponse α → Nat
  | .pure _ => 0
  | .fetch req k => 1 + authFetchCount net (k (net req))

/-- Embedding of `getAccessToken` (auth.ts lines 127-221) after the overload dispatch has
resolved the actual grant type and parameter record: validation first (a
failure throws before any request is constructed or sent), then the single
POST to the token endpoint; a non-2xx status raises `authenticationFailed`,
a 2xx response is parsed into the `AuthResponse` at clock reading `now`. -/
def getAccessToken (a : AuthCfg) (grantType : String)
    (params : Option GrantParams) (now : Int) :
    FetchProg TokenNetResponse (Except AuthError AuthResponse) :=
  match validateParams grantType params with
  | .error e => .pure (.error e)
  | .ok _ =>
    .fetch (tokenRequest a grantType params) (fun resp =>
      .pure (if respOk resp.status then
        .ok (buildAuthResponse now resp.tokenData)
      else
        .error (.authenticationFailed resp.status resp.rawText)))

/-! ### Specification-side vocabulary

Definitions in this section state properties in the claims' terms, to be
compared with the embedded code above. -/

/-- Plain iterated resolution of a segment list against a value: the value at
each prefix of the path, with no early exit. -/
def iterResolve (data : JsValue) (segs : List String) : JsValue :=
  segs.foldl jsGet data

/-- The traversal reaches `null`/`undefined` strictly before the path is
exhausted: some strict prefix of the segments resolves to a nullish value
while at least one segment remains to be consumed. -/
def pathHitsNullish (data : JsValue) (segs : List String) : Prop :=
  ∃ i, i < segs.length ∧ isNullish (iterResolve data (segs.take i)) = true

/-- A grant type with a mandated parameter whose field is missing or empty in
the supplied record: `password` mandates username and password,
`refresh_token` a refresh token, `exchange_code` an exchange code
(`client_credentials` mandates nothing). -/
def missingMandated (grantType : String) (params : Option GrantParams) : Prop :=
  (grantType = "password" ∧
    (falsyField params (fun p => p.username) = true ∨
     falsyField params (fun p => p.password) = true)) ∨
  (grantType = "refresh_token" ∧ falsyField params (fun p => p.refreshToken) = true) ∨
  (grantType = "exchange_code" ∧ falsyField params (fun p => p.exchangeCode) = true)

/-! ### Concrete fixtures used by witnesses -/

def tokenDataStub : TokenData :=
  { access_token := "tok", expires_in := 3600, refresh_token := none,
    token_type := "bearer", client_id := "cid", internal_client := "ic",
    client_service := "svc", account_id := "acc" }

/-- A network oracle whose token endpoint always answers 200 with
`tokenDataStub`. -/
def tokenNetStub : EngineRequest → TokenNetResponse :=
  fun _ => { status := 200, rawText := "", tokenData := tokenDataStub }

def authCfgStub : AuthCfg :=
  { clientId := "id", clientSecret := "sec", grantType := "password",
    baseUrl := "http://localhost:8787" }

/-- A formData-encoded GET carrying a caller-supplied Content-Type header and
no body. -/
def formDataGetOptions : TestOptions :=
  { endpoint := "/e", bodyType := .formData, body := .undefined,
    headers := [("Content-Type", "text/plain")], queryParams := [],
    bearerAuth := false, timeout := 30000 }

/-- A formData-encoded POST with a truthy object body and no caller headers. -/
def formDataPostOptions : TestOptions :=
  { endpoint := "/e", bodyType := .formData, body := .obj [("k", .str "v")],
    headers := [], queryParams := [], bearerAuth := false, timeout := 30000 }

/-- A text-encoded POST whose payload is the empty string (falsy). -/
def emptyTextPostOptions : TestOptions :=
  { endpoint := "/e", bodyType := .text, body := .str "", headers := [],
    queryParams := [], bearerAuth := false, timeout := 30000 }

/-! ## Helper lemmas -/

theorem propLoop_eq_none_iff (segs : List String) (data : JsValue) :
    propLoop data segs = none ↔ pathHitsNullish data segs := by
  induction segs generalizing data with
  | nil =>
    simp [propLoop, pathHitsNullish]
  | cons p rest ih =>
    cases hn : isNullish data with
    | true =>
      constructor
      · intro _
        exact ⟨0, by simp, by simpa [iterResolve] using hn⟩
      · intro _
        simp [propLoop, hn]
    | false =>
      have hstep : propLoop data (p :: rest) = propLoop (jsGet data p) rest := by
        simp [propLoop, hn]
      rw [hstep, ih (jsGet data p)]
      constructor
      · rintro ⟨i, hi, hnn⟩
        refine ⟨i + 1, by simpa using hi, ?_⟩
        simpa [iterResolve] using hnn
      · rintro ⟨i, hi, hnn⟩
        match i with
        | 0 =>
          simp [iterResolve] at hnn
          rw [hn] at hnn
          cases hnn
        | Nat.succ j =>
          refine ⟨j, by simpa using hi, ?_⟩
          simpa [iterResolve] using hnn

theorem propLoop_eq_some (segs : List String) (data v : JsValue)
    (h : propLoop data segs = some v) : v = iterResolve data segs := by
  induction segs generalizing data with
  | nil =>
    simp [propLoop] at h
    simp [iterResolve, h]
  | cons p rest ih =>
    cases hn : isNullish data with
    | true => simp [propLoop, hn] at h
    | false =>
      simp [propLoop, hn] at h
      simpa [iterResolve] using ih (jsGet data p) h

theorem strTruthy_iff (o : Option String) :
    strTruthy o = true ↔ ∃ s, o = some s ∧ s ≠ "" := by
  cases o with
  | none => simp [strTruthy]
  | some s => simp [strTruthy]

theorem toHaveProperty_none (data : JsValue) (path : String) (value : JsValue)
    (h : propLoop data (splitDots path) = none) :
    toHaveProperty data path value = .notFound := by
  simp [toHaveProperty, h]

theorem toHaveProperty_some_ne_notFound (data : JsValue) (path : String)
    (value cur : JsValue) (h : propLoop data (splitDots path) = some cur) :
    toHaveProperty data path value ≠ .notFound := by
  simp only [toHaveProperty, h]
  split <;> split <;> simp

theorem toHaveProperty_some_undefined (data : JsValue) (path : String)
    (value cur : JsValue) (h : propLoop data (splitDots path) = some cur)
    (hv : isUndefined value = true) :
    (toHaveProperty data path value = .passed ↔ isUndefined cur = false) := by
  cases hc : isUndefined cur <;> simp [toHaveProperty, h, hv, hc]

theorem toHaveProperty_some_given (data : JsValue) (path : String)
    (value cur : JsValue) (h : propLoop data (splitDots path) = some cur)
    (hv : isUndefined value = false) :
    (toHaveProperty data path value = .passed ↔ jsStrictEq cur value = true) := by
  cases hc : jsStrictEq cur value <;> simp [toHaveProperty, h, hv, hc]

theorem toHaveProperty_undef_cur_failed (data : JsValue) (path : String)
    (value cur : JsValue) (h : propLoop data (splitDots path) = some cur)
    (hv : isUndefined value = true) (hc : isUndefined cur = true) :
    toHaveProperty data path value = .failed := by
  simp [toHaveProperty, h, hv, hc]

theorem propLoop_some_not_hits (data : JsValue) (segs : List String)
    (cur : JsValue) (h : propLoop data segs = some cur) :
    ¬ pathHitsNullish data segs := by
  intro hc
  rw [← propLoop_eq_none_iff] at hc
  simp [h] at hc

/-! ## Claim theorems -/

/-- C4.  `toHaveProperty` resolves the dot-separated path segment by segment
against the body: the outcome is the "not found" log line exactly when the
traversal reaches `null`/`undefined` strictly before the path is exhausted
(in particular when an intermediate segment is absent); when an expected
value is given (JS-observably: the value argument is not `undefined`), the
assertion passes iff the traversal completes and the resolved location is
strictly equal to that value; with no value argument it passes iff the
traversal completes and the resolved value is defined. -/
theorem toHaveProperty_path_spec (data : JsValue) (path : String) (value : JsValue) :
    (toHaveProperty data path value = .notFound ↔
      pathHitsNullish data (splitDots path)) ∧
    (isUndefined value = false →
      (toHaveProperty data path value = .passed ↔
        ¬ pathHitsNullish data (splitDots path) ∧
        jsStrictEq (iterResolve data (splitDots path)) value = true)) ∧
    (isUndefined value = true →
      (toHaveProperty data path value = .passed ↔
        ¬ pathHitsNullish data (splitDots path) ∧
        isUndefined (iterResolve data (splitDots path)) = false)) := by
  refine ⟨?_, ?_, ?_⟩
  · cases he : propLoop data (splitDots path) with
    | none =>
      rw [toHaveProperty_none data path value he]
      exact ⟨fun _ => (propLoop_eq_none_iff _ _).1 he, fun _ => rfl⟩
    | some cur =>
      constructor
      · intro h
        exact absurd h (toHaveProperty_some_ne_notFound data path value cur he)
      · intro h
        exact absurd h (propLoop_some_not_hits data _ cur he)
  · intro hv
    cases he : propLoop data (splitDots path) with
    | none =>
      rw [toHaveProperty_none data path value he]
      constructor
      · intro h
        simp at h
      · rintro ⟨hno, _⟩
        exact absurd ((propLoop_eq_none_iff _ _).1 he) hno
    | some cur =>
      have hcur := propLoop_eq_some _ _ _ he
      have hno := propLoop_some_not_hits data _ cur he
      rw [toHaveProperty_some_given data path value cur he hv, ← hcur]
      exact ⟨fun h => ⟨hno, h⟩, fun h => h.2⟩
  · intro hv
    cases he : propLoop data (splitDots path) with
    | none =>
      rw [toHaveProperty_none data path value he]
      constructor
      · intro h
        simp at h
      · rintro ⟨hno, _⟩
        exact absurd ((propLoop_eq_none_iff _ _).1 he) hno
    | some cur =>
      have hcur := propLoop_eq_some _ _ _ he
      have hno := propLoop_some_not_hits data _ cur he
      rw [toHaveProperty_some_undefined data path value cur he hv, ← hcur]
      exact ⟨fun h => ⟨hno, h⟩, fun h => h.2⟩

/-- C10.  An explicitly passed second argument of `undefined` is
indistinguishable from the one-argument call (JS passes `undefined` for an
omitted optional parameter and the code only tests `value !== undefined`), so
the assertion degrades to a presence check: it passes iff the traversal
completes with a defined value.  Consequently equality with `undefined`
cannot be asserted: whenever the path does resolve to `undefined` — a
location strictly equal to `undefined` — the call fails. -/
theorem toHaveProperty_explicit_undefined (data : JsValue) (path : String) :
    (toHaveProperty data path JsValue.undefined = .passed ↔
      ¬ pathHitsNullish data (splitDots path) ∧
      isUndefined (iterResolve data (splitDots path)) = false) ∧
    (propLoop data (splitDots path) = some JsValue.undefined →
      jsStrictEq JsValue.undefined JsValue.undefined = true ∧
      toHaveProperty data path JsValue.undefined = .failed) := by
  constructor
  · cases he : propLoop data (splitDots path) with
    | none =>
      rw [toHaveProperty_none data path JsValue.undefined he]
      constructor
      · intro h
        simp at h
      · rintro ⟨hno, _⟩
        exact absurd ((propLoop_eq_none_iff _ _).1 he) hno
    | some cur =>
      have hcur := propLoop_eq_some _ _ _ he
      have hno := propLoop_some_not_hits data _ cur he
      rw [toHaveProperty_some_undefined data path JsValue.undefined cur he rfl, ← hcur]
      exact ⟨fun h => ⟨hno, h⟩, fun h => h.2⟩
  · intro he
    exact ⟨rfl, toHaveProperty_undef_cur_failed data path JsValue.undefined
      JsValue.undefined he rfl rfl⟩

/-- Witness for C4 at a nested body and a given expected value. -/
theorem toHaveProperty_path_spec_witness :
    isUndefined (JsValue.num 5) = false ∧
    (toHaveProperty (.obj [("a", .obj [("b", .num 5)])]) "a.b" (.num 5) = .passed ↔
      ¬ pathHitsNullish (.obj [("a", .obj [("b", .num 5)])]) (splitDots "a.b") ∧
      jsStrictEq (iterResolve (.obj [("a", .obj [("b", .num 5)])]) (splitDots "a.b"))
        (.num 5) = true) :=
  ⟨rfl, (toHaveProperty_path_spec (.obj [("a", .obj [("b", .num 5)])]) "a.b"
    (.num 5)).2.1 rfl⟩

/-- Witness for C10 at a body whose path resolves to `undefined`. -/
theorem toHaveProperty_explicit_undefined_witness :
    jsStrictEq JsValue.undefined JsValue.undefined = true ∧
    toHaveProperty (.obj [("a", .undefined)]) "a" JsValue.undefined = .failed :=
  (toHaveProperty_explicit_undefined (.obj [("a", .undefined)]) "a").2 rfl

/-- C1.  One logical test invocation — `test` or any of the `get`/`post`/
`put`/`patch`/`delete` wrappers, which are `testChain` at a fixed method —
performs exactly one network exchange, whatever the chain of assertions:
each assertion reads the single memoized request outcome and contributes no
further `fetch`. -/
theorem testChain_single_exchange (net : EngineRequest → NetResponse)
    (baseUrl accessToken method description : String) (o : TestOptions)
    (chain : List Assertion) :
    fetchCount net (testChain baseUrl accessToken method description o chain) = 1 :=
  rfl

/-- C2 (code bug).  The two objects below are key-order permutations of one
another — structurally equal as values — yet `toMatchData`, which compares
`JSON.stringify` output literally, rejects them. -/
theorem toMatchData_key_order_bug :
    List.Perm [("a", JsValue.num 1), ("b", JsValue.num 2)]
      [("b", JsValue.num 2), ("a", JsValue.num 1)] ∧
    toMatchData (.obj [("a", .num 1), ("b", .num 2)])
      (.obj [("b", .num 2), ("a", .num 1)]) = false :=
  ⟨List.Perm.swap _ _ _, by decide⟩

theorem validateParams_error_of_missing (grantType : String)
    (params : Option GrantParams) (hm : missingMandated grantType params) :
    ∃ msg, validateParams grantType params = .error (.invalidParameters msg) := by
  rcases hm with ⟨hgt, hf | hf⟩ | ⟨hgt, hf⟩ | ⟨hgt, hf⟩ <;> subst hgt
  · exact ⟨"Username and password are required for password grant type",
      by simp [validateParams, hf]⟩
  · exact ⟨"Username and password are required for password grant type",
      by simp [validateParams, hf]⟩
  · exact ⟨"Refresh token is required for refresh_token grant type",
      by simp [validateParams, hf]⟩
  · exact ⟨"Exchange code is required for exchange_code grant type",
      by simp [validateParams, hf]⟩

/-- C3.  Calling `getAccessToken` with a grant type whose mandated parameter
is missing or empty fails with the `InvalidParameters` validation error and
performs zero network exchanges; a custom grant type (none of the four
structured ones) skips validation entirely. -/
theorem getAccessToken_invalid_params_no_network (a : AuthCfg)
    (net : EngineRequest → TokenNetResponse) (now : Int) (grantType : String)
    (params : Option GrantParams) :
    (missingMandated grantType params →
      (∃ msg, runAuthProg net (getAccessToken a grantType params now) =
        .error (.invalidParameters msg)) ∧
      authFetchCount net (getAccessToken a grantType params now) = 0) ∧
    (grantType ∉ (["password", "refresh_token", "exchange_code",
        "client_credentials"] : List String) →
      validateParams grantType params = .ok ()) := by
  constructor
  · intro hm
    rcases validateParams_error_of_missing grantType params hm with ⟨msg, hmsg⟩
    have hprog : getAccessToken a grantType params now =
        .pure (.error (.invalidParameters msg)) := by
      simp [getAccessToken, hmsg]
    rw [hprog]
    exact ⟨⟨msg, rfl⟩, rfl⟩
  · intro hns
    have h1 : ¬ grantType = "password" := fun h => hns (by rw [h]; simp)
    have h2 : ¬ grantType = "refresh_token" := fun h => hns (by rw [h]; simp)
    have h3 : ¬ grantType = "exchange_code" := fun h => hns (by rw [h]; simp)
    simp [validateParams, h1, h2, h3]

/-- Witness for C3: a password-grant call with no parameter record errors
out with zero exchanges. -/
theorem getAccessToken_invalid_params_no_network_witness :
    (∃ msg, runAuthProg tokenNetStub
        (getAccessToken authCfgStub "password" none 0) =
      .error (.invalidParameters msg)) ∧
    authFetchCount tokenNetStub (getAccessToken authCfgStub "password" none 0) = 0 :=
  (getAccessToken_invalid_params_no_network authCfgStub tokenNetStub 0 "password"
    none).1 (Or.inl ⟨rfl, Or.inl rfl⟩)

/-- C7.  Every successful token exchange yields an `AuthResponse` whose
absolute expiry equals the clock reading at response processing plus
`expires_in` seconds (`Date.now() + expires_in * 1000` milliseconds). -/
theorem authResponse_expiry (a : AuthCfg) (net : EngineRequest → TokenNetResponse)
    (grantType : String) (params : Option GrantParams) (now : Int)
    (ar : AuthResponse)
    (h : runAuthProg net (getAccessToken a grantType params now) = .ok ar) :
    ar.expires_at_ms = now + ar.expires_in * 1000 := by
  cases hv : validateParams grantType params with
  | error e =>
    simp [getAccessToken, hv, runAuthProg] at h
  | ok u =>
    simp [getAccessToken, hv, runAuthProg] at h
    cases hok : respOk (net (tokenRequest a grantType params)).status with
    | false => simp [hok] at h
    | true =>
      simp [hok] at h
      rw [← h]
      simp [buildAuthResponse]

/-- Witness for C7 against a stub token endpoint answering 200. -/
theorem authResponse_expiry_witness :
    (buildAuthResponse 500 tokenDataStub).expires_at_ms =
      500 + (buildAuthResponse 500 tokenDataStub).expires_in * 1000 :=
  authResponse_expiry authCfgStub tokenNetStub "client_credentials" none 500
    (buildAuthResponse 500 tokenDataStub) rfl

/-- C8 (code bug).  The engine merely stores the configured timeout in the
fetch init object: `EngineRequest` mirrors the members the source ever sets
(`method`, `headers`, `timeout`, `body`) and carries no abort signal, so no
mechanism exists that could abort the exchange when the timeout elapses. -/
theorem requestOptions_timeout_forwarded_only (baseUrl accessToken method : String)
    (o : TestOptions) :
    (buildRequest baseUrl accessToken method o).timeout = o.timeout :=
  rfl

/-- C9.  A falsy body payload (`undefined`, `null`, `""`, `0`, `false`) is
never attached to the exchange, whatever the method and body encoding. -/
theorem falsy_body_not_attached (baseUrl accessToken method : String)
    (o : TestOptions) (h : jsTruthy o.body = false) :
    (buildRequest baseUrl accessToken method o).body = none := by
  simp [buildRequest, attachBody, h]

/-- Witness for C9: a text-encoded empty-string payload on a POST is
dropped. -/
theorem falsy_body_not_attached_witness :
    jsTruthy emptyTextPostOptions.body = false ∧
    (buildRequest "http://h" "" "POST" emptyTextPostOptions).body = none :=
  ⟨rfl, falsy_body_not_attached "http://h" "" "POST" emptyTextPostOptions rfl⟩

theorem find?_key_map_set (o : List (String × String)) (k v k2 : String)
    (hk : ((k : String) == k2) = false) :
    List.find? (fun p => p.1 == k2)
        (o.map fun p => if p.1 == k then (k, v) else p) =
      List.find? (fun p => p.1 == k2) o := by
  induction o with
  | nil => rfl
  | cons p rest ih =>
    simp only [List.map_cons]
    by_cases hp : (p.1 == k) = true
    · have hp1 : p.1 = k := by simpa using hp
      rw [if_pos hp]
      simp only [List.find?, hp1, hk]
      exact ih
    · rw [if_neg hp]
      cases hq : (p.1 == k2) with
      | true => simp only [List.find?, hq]
      | false =>
        simp only [List.find?, hq]
        exact ih

theorem objGet_objSet_ne (o : List (String × String)) (k v k2 : String)
    (h : k2 ≠ k) : objGet (objSet o k v) k2 = objGet o k2 := by
  have hk : ((k : String) == k2) = false := by
    simp only [beq_eq_false_iff_ne, ne_eq]
    exact fun he => h he.symm
  unfold objSet
  split
  · simp only [objGet, find?_key_map_set o k v k2 hk]
  · simp only [objGet, List.find?_append]
    have hlast : List.find? (fun p => p.1 == k2) [(k, v)] = none := by
      rw [List.find?_cons_of_neg _ (by simp [hk])]
      rfl
    simp only [hlast]
    cases List.find? (fun p => p.1 == k2) o <;> rfl

theorem objGet_objDelete_self (o : List (String × String)) (k : String) :
    objGet (objDelete o k) k = none := by
  unfold objGet objDelete
  rw [Option.map_eq_none', List.find?_eq_none]
  intro p hp
  rw [List.mem_filter] at hp
  simpa using hp.2

theorem objGet_objMerge_none (a b : List (String × String)) (k : String)
    (ha : objGet a k = none) (hb : objGet b k = none) :
    objGet (objMerge a b) k = none := by
  induction b generalizing a with
  | nil => simpa [objMerge] using ha
  | cons p rest ih =>
    have hsplit : ¬ ((p.1 == k) = true) ∧ objGet rest k = none := by
      simp only [objGet, Option.map_eq_none', List.find?_eq_none] at hb
      constructor
      · exact hb p (List.mem_cons_self p rest)
      · simp only [objGet, Option.map_eq_none', List.find?_eq_none]
        intro x hx
        exact hb x (List.mem_cons_of_mem p hx)
    have hmerge : objMerge a (p :: rest) = objMerge (objSet a p.1 p.2) rest := rfl
    rw [hmerge]
    refine ih (objSet a p.1 p.2) ?_ hsplit.2
    rw [objGet_objSet_ne a p.1 p.2 k ?_]
    · exact ha
    · intro he
      exact hsplit.1 (by simp [he])

/-- C5 (counterexample).  With an explicitly supplied empty-string value
argument, `toHaveHeader` passes on a header whose value is `"abc"` — no
exact match is required because `value ?` is falsy for `""` and the call
degrades to a presence check. -/
theorem toHaveHeader_empty_value_counterexample :
    toHaveHeader [("X-Trace", "abc")] "X-Trace" (some "") = true ∧
    headersGet [("X-Trace", "abc")] "X-Trace" = some "abc" ∧
    ("abc" : String) ≠ "" := by
  refine ⟨by decide, by decide, by decide⟩

/-- C5 (amended).  `toHaveHeader` passes iff: with a non-empty value
argument, the header's value (case-insensitive name lookup) equals it
exactly; with no value argument or an empty-string value argument, the
header is present with a non-empty (truthy) value. -/
theorem toHaveHeader_truthiness_spec (headers : List (String × String))
    (name : String) (value : Option String) :
    (∀ v, value = some v → v ≠ "" →
      (toHaveHeader headers name value = true ↔
        headersGet headers name = some v)) ∧
    ((value = none ∨ value = some "") →
      (toHaveHeader headers name value = true ↔
        ∃ s, headersGet headers name = some s ∧ s ≠ "")) := by
  constructor
  · rintro v rfl hv
    have htv : strTruthy (some v) = true := by simp [strTruthy, hv]
    simp [toHaveHeader, htv]
  · rintro (rfl | rfl)
    · have heq : toHaveHeader headers name none =
          strTruthy (headersGet headers name) := by
        simp [toHaveHeader, strTruthy]
      rw [heq]
      exact strTruthy_iff _
    · have heq : toHaveHeader headers name (some "") =
          strTruthy (headersGet headers name) := by
        simp [toHaveHeader, strTruthy]
      rw [heq]
      exact strTruthy_iff _

/-- Witness for the amended C5 at a present header, also exercising the
case-insensitive lookup. -/
theorem toHaveHeader_truthiness_spec_witness :
    (toHaveHeader [("Content-Type", "application/json")] "content-type"
        (some "application/json") = true ↔
      headersGet [("Content-Type", "application/json")] "content-type" =
        some "application/json") :=
  (toHaveHeader_truthiness_spec [("Content-Type", "application/json")]
    "content-type" (some "application/json")).1 "application/json" rfl (by decide)

/-- C6 (counterexample).  A formData-encoded request with a caller-supplied
`Content-Type` header and no attached body (here: a GET) is sent with that
`Content-Type` entry intact — the engine deletes it only on the
truthy-body POST/PUT/PATCH path. -/
theorem formData_content_type_counterexample :
    objGet (buildRequest "http://h" "" "GET" formDataGetOptions).headers
      "Content-Type" = some "text/plain" := by
  decide

/-- C6 (amended).  For `formData` body encoding the engine itself never sets
a `Content-Type` entry: if the caller headers carry none, the sent headers
carry none (any method, any body); and whenever a body is actually attached
(truthy payload with POST/PUT/PATCH) the `Content-Type` entry is deleted
even if the caller supplied one. -/
theorem formData_never_sets_content_type (baseUrl accessToken method : String)
    (o : TestOptions) (hbt : o.bodyType = .formData) :
    (objGet o.headers "Content-Type" = none →
      objGet (buildRequest baseUrl accessToken method o).headers
        "Content-Type" = none) ∧
    (jsTruthy o.body = true →
      (method = "POST" ∨ method = "PUT" ∨ method = "PATCH") →
      objGet (buildRequest baseUrl accessToken method o).headers
        "Content-Type" = none) := by
  have hassemble : objGet o.headers "Content-Type" = none →
      objGet (assembleHeaders accessToken o) "Content-Type" = none := by
    intro hh
    have h0 : objGet (objMerge [] o.headers) "Content-Type" = none :=
      objGet_objMerge_none [] o.headers "Content-Type" rfl hh
    simp only [assembleHeaders, hbt, ite_self]
    split
    · rw [objGet_objSet_ne _ _ _ _ (by decide)]
      exact h0
    · exact h0
  constructor
  · intro hh
    show objGet (attachBody method o (assembleHeaders accessToken o)).1
      "Content-Type" = none
    simp only [attachBody, hbt]
    split
    · exact objGet_objDelete_self _ _
    · exact hassemble hh
  · intro hb hm
    show objGet (attachBody method o (assembleHeaders accessToken o)).1
      "Content-Type" = none
    have hcond : (jsTruthy o.body &&
        (method == "POST" || method == "PUT" || method == "PATCH")) = true := by
      rcases hm with rfl | rfl | rfl <;> simp [hb]
    simp only [attachBody, hbt, hcond, if_true]
    exact objGet_objDelete_self _ _

/-- Witness for the amended C6: a formData POST with a truthy body and no
caller headers is sent without a `Content-Type` entry (both conjuncts
discharge at this input). -/
theorem formData_never_sets_content_type_witness :
    objGet (buildRequest "http://h" "" "POST" formDataPostOptions).headers
      "Content-Type" = none :=
  (formData_never_sets_content_type "http://h" "" "POST" formDataPostOptions
    rfl).2 rfl (Or.inl rfl)

end FortTest
